import Mathlib

/-!
Shallow embedding of the RPC pub/sub notification engine from
`rpc/src/rpc_subscriptions.rs`, together with theorems settling the
frozen claims about it.  Pure helpers of the source become Lean
functions; the mutable `last_notified_slot` becomes explicit state
passing; ledger collaborators (`Bank`, `BankForks`) become records of
query functions.  Machine integers (`Slot = u64`, `usize`) are modelled
as `Nat`; the only arithmetic the claims touch is checked (`checked_add`
/ `checked_sub` in byte accounting), which cannot wrap, so `Nat` is
faithful.
-/

/-- `Slot` is `u64` in the source; modelled as `Nat`. -/
abbrev Slot := Nat

/-- Public keys are opaque 32-byte identifiers; modelled as `Nat`. -/
abbrev Pubkey := Nat

/-- The SPL-token program id (`spl_token_id_v2_0()`), an external fixed
constant distinct from the default (all-zero) pubkey; modelled as an
arbitrary nonzero constant. -/
def spl_token_id_v2_0 : Pubkey := 1000003

/-- Commitment levels, per the data model: processed / confirmed /
finalized (`CommitmentConfig` collapsed to its three semantic levels). -/
inductive CommitmentLevel
  | processed
  | confirmed
  | finalized
deriving DecidableEq, Repr

/-- `CommitmentConfig::is_finalized`. -/
def CommitmentLevel.is_finalized : CommitmentLevel → Bool
  | .finalized => true
  | _ => false

/-- `CommitmentConfig::is_confirmed`. -/
def CommitmentLevel.is_confirmed : CommitmentLevel → Bool
  | .confirmed => true
  | _ => false

/-- `solana_runtime::commitment::CommitmentSlots`. -/
structure CommitmentSlots where
  slot : Slot
  highest_confirmed_slot : Slot
  highest_confirmed_root : Slot
deriving DecidableEq, Repr

/-- `AccountSharedData`; account data is a byte list. -/
structure AccountSharedData where
  lamports : Nat
  data : List Nat
  owner : Pubkey
  executable : Bool
  rent_epoch : Nat
deriving DecidableEq, Repr

/-- `AccountSharedData::default()`: the zero-valued account. -/
def AccountSharedData.default_account : AccountSharedData :=
  { lamports := 0, data := [], owner := 0, executable := false, rent_epoch := 0 }

instance : Inhabited AccountSharedData := ⟨AccountSharedData.default_account⟩

/-- `UiAccountEncoding`. -/
inductive UiAccountEncoding
  | binary
  | base58
  | base64
  | base64Zstd
  | jsonParsed
deriving DecidableEq, Repr

/-- Encoded account values.  The two external encoders are modelled as
constructors: `encoded p a e` stands for `UiAccount::encode(&p, &a, e,
None, None)` and `parsedToken p a` for `get_parsed_token_account(bank,
&p, a)` (both live outside this crate; only which one is chosen, and on
which inputs, is decided by the code under verification). -/
inductive UiAccount
  | encoded (pubkey : Pubkey) (account : AccountSharedData) (encoding : UiAccountEncoding)
  | parsedToken (pubkey : Pubkey) (account : AccountSharedData)
deriving DecidableEq, Repr

/-- `AccountSubscriptionParams` (data-slice omitted: it is only threaded
to the external encoder). -/
structure AccountSubscriptionParams where
  pubkey : Pubkey
  commitment : CommitmentLevel
  encoding : UiAccountEncoding
deriving DecidableEq, Repr

/-- `TransactionLogInfo`; `result : Option Nat` models
`transaction::Result<()>` by its `.err()` projection (`none` = Ok). -/
structure TransactionLogInfo where
  signature : Nat
  result : Option Nat
  log_messages : List String
  is_vote : Bool
deriving DecidableEq, Repr

/-- A ledger bank at one slot, as the record of the query methods the
engine calls (collaborator interface).  Signature status
`Option (Option Nat)` models `Option<transaction::Result<()>>` with the
inner value its `.err()` projection. -/
structure Bank where
  get_account_modified_slot : Pubkey → Option (AccountSharedData × Slot)
  get_program_accounts_modified_since_parent : Pubkey → List (Pubkey × AccountSharedData)
  get_signature_status_processed_since_parent : Nat → Option (Option Nat)
  get_transaction_logs : Option Pubkey → Option (List TransactionLogInfo)

/-- `BankForks::get`: the bank-forks collaborator as a partial map from
slots to banks. -/
abbrev BankForks := Slot → Option Bank

/-- `RpcResponseContext`. -/
structure RpcResponseContext where
  slot : Slot
deriving DecidableEq, Repr

/-- `rpc_response::Response`. -/
structure Response (S : Type) where
  context : RpcResponseContext
  value : S
deriving DecidableEq, Repr

/-- The commitment-resolution step of `check_commitment_and_notify`
(lines 142-148): pick the slot to query from the subscription's
commitment level and the `CommitmentSlots` snapshot. -/
def resolve_commitment_slot (commitment : CommitmentLevel)
    (commitment_slots : CommitmentSlots) : Slot :=
  if commitment.is_finalized then
    commitment_slots.highest_confirmed_root
  else if commitment.is_confirmed then
    commitment_slots.highest_confirmed_slot
  else
    commitment_slots.slot

/-- `filter_account_result`: if the query returned nothing the account
defaults to the zero-valued account with `last_modified_slot = 0`
(`result.unwrap_or_default()`); a value is emitted exactly when
`last_modified_slot != last_notified_slot`; SPL-token owned accounts
under `jsonParsed` use the parsed-token encoder.  Returns the (at most
one-element) output sequence and the candidate last-notified slot.
The `bank` argument is only passed through to the external parsed-token
encoder. -/
def filter_account_result (result : Option (AccountSharedData × Slot))
    (params : AccountSubscriptionParams) (last_notified_slot : Slot)
    (_bank : Bank) : List UiAccount × Slot :=
  let ar := result.getD (AccountSharedData.default_account, 0)
  let account := ar.1
  let last_modified_slot := ar.2
  let results : List UiAccount :=
    if last_modified_slot ≠ last_notified_slot then
      if account.owner = spl_token_id_v2_0 ∧ params.encoding = UiAccountEncoding.jsonParsed then
        [UiAccount.parsedToken params.pubkey account]
      else
        [UiAccount.encoded params.pubkey account params.encoding]
    else
      []
  (results, last_modified_slot)

/-- Result of one `check_commitment_and_notify` run: the notifications
emitted, the final value of the subscription's `last_notified_slot`, and
the returned `notified` flag. -/
structure NotifyResult (S : Type) where
  notifications : List (Response S)
  last_notified_slot : Slot
  notified : Bool
deriving DecidableEq, Repr

/-- `check_commitment_and_notify` (the subscription's commitment level
is passed directly: every subscription kind reaching this function
carries one).  Resolve the slot, look up the bank; if absent, skip.
Otherwise run the bank method and the filter, then the notify loop:
each emitted value appends a notification, overwrites
`last_notified_slot` with the filter's candidate slot, and sets
`notified`.  The `is_final` flag the source threads to the broadcast
message is not represented (it does not affect engine state). -/
def check_commitment_and_notify {P X S : Type}
    (params : P) (commitment : CommitmentLevel) (last_notified_slot : Slot)
    (bank_forks : BankForks) (commitment_slots : CommitmentSlots)
    (bank_method : Bank → P → X)
    (filter_results : X → P → Slot → Bank → List S × Slot) :
    NotifyResult S :=
  let slot := resolve_commitment_slot commitment commitment_slots
  match bank_forks slot with
  | none => ⟨[], last_notified_slot, false⟩
  | some bank =>
    let results := bank_method bank params
    let fr := filter_results results params last_notified_slot bank
    fr.1.foldl
      (fun acc result =>
        ⟨acc.notifications ++ [⟨⟨slot⟩, result⟩], fr.2, true⟩)
      ⟨[], last_notified_slot, false⟩

/-- The Account instantiation of `check_commitment_and_notify`, as in
`notify_accounts_logs_programs_signatures`: bank method
`get_account_modified_slot`, filter `filter_account_result`. -/
def notify_account (params : AccountSubscriptionParams) (last_notified_slot : Slot)
    (bank_forks : BankForks) (commitment_slots : CommitmentSlots) :
    NotifyResult UiAccount :=
  check_commitment_and_notify params params.commitment last_notified_slot
    bank_forks commitment_slots
    (fun bank params => bank.get_account_modified_slot params.pubkey)
    filter_account_result

/-- A concrete bank used to witness the account-path theorems: the
watched account is reported as modified at slot 3. -/
def bank_fix1 : Bank :=
  { get_account_modified_slot := fun _ => some (AccountSharedData.default_account, 3)
    get_program_accounts_modified_since_parent := fun _ => []
    get_signature_status_processed_since_parent := fun _ => none
    get_transaction_logs := fun _ => none }

/-- A concrete bank-forks map holding `bank_fix1` at slot 9 only. -/
def bank_forks_fix1 : BankForks :=
  fun s => if s = 9 then some bank_fix1 else none

/-- A concrete bank whose account query finds nothing (deleted
account), used to witness the account-deletion theorem. -/
def bank_fix_deleted : Bank :=
  { get_account_modified_slot := fun _ => none
    get_program_accounts_modified_since_parent := fun _ => []
    get_signature_status_processed_since_parent := fun _ => none
    get_transaction_logs := fun _ => none }

/-- A concrete bank-forks map holding `bank_fix_deleted` at slot 9 only. -/
def bank_forks_fix_deleted : BankForks :=
  fun s => if s = 9 then some bank_fix_deleted else none

/-- The empty bank-forks map (no bank at any slot). -/
def bank_forks_empty : BankForks := fun _ => none

/-- Processing a sequence of `n` identical Bank events (same
`CommitmentSlots`, same bank-forks state) for one Account subscription:
each event runs `notify_account` and threads the subscription's
`last_notified_slot` to the next.  Returns all notifications emitted and
the final last-notified slot. -/
def account_events (params : AccountSubscriptionParams) (bank_forks : BankForks)
    (cs : CommitmentSlots) : Nat → Slot → List (Response UiAccount) × Slot
  | 0, lns => ([], lns)
  | n + 1, lns =>
    let r := notify_account params lns bank_forks cs
    let rest := account_events params bank_forks cs n r.last_notified_slot
    (r.notifications ++ rest.1, rest.2)

/-- The modified slot the account query reports at the resolved bank
(after `unwrap_or_default`), if a bank exists there. -/
def queried_modified_slot (params : AccountSubscriptionParams)
    (bank_forks : BankForks) (cs : CommitmentSlots) : Option Slot :=
  (bank_forks (resolve_commitment_slot params.commitment cs)).map
    (fun bank =>
      ((bank.get_account_modified_slot params.pubkey).getD
        (AccountSharedData.default_account, 0)).2)

/-- `rpc_filter::RpcFilterType`: data-size or memory-compare. -/
inductive RpcFilterType
  | dataSize (size : Nat)
  | memcmp (offset : Nat) (bytes : List Nat)
deriving DecidableEq, Repr

/-- Modelled from the spec: `Memcmp::bytes_match` (external to this
crate) — a memcmp filter matches when the account's data at the
specified offset equals the given bytes. -/
def memcmp_bytes_match (offset : Nat) (bytes : List Nat) (data : List Nat) : Bool :=
  decide ((data.drop offset).take bytes.length = bytes)

/-- `ProgramSubscriptionParams` (data-slice and with-context omitted:
both are only threaded to the external encoder / response wrapper). -/
structure ProgramSubscriptionParams where
  pubkey : Pubkey
  filters : List RpcFilterType
  encoding : UiAccountEncoding
  commitment : CommitmentLevel
deriving DecidableEq, Repr

/-- `RpcKeyedAccount` (the source stringifies the pubkey; kept as
`Pubkey`). -/
structure RpcKeyedAccount where
  pubkey : Pubkey
  account : UiAccount
deriving DecidableEq, Repr

/-- The per-account filter closure of `filter_program_results`:
all-match conjunction of the subscription's filter list. -/
def program_filter_predicate (filters : List RpcFilterType)
    (account : AccountSharedData) : Bool :=
  filters.all fun filter_type =>
    match filter_type with
    | RpcFilterType.dataSize size => decide (account.data.length = size)
    | RpcFilterType.memcmp offset bytes => memcmp_bytes_match offset bytes account.data

/-- `filter_program_results`: note that `accounts_is_empty` is computed
from the RAW account list, before filtering, exactly as in the source;
`get_parsed_token_accounts` is modelled as mapping each filtered keyed
account to its parsed-token form. -/
def filter_program_results (accounts : List (Pubkey × AccountSharedData))
    (params : ProgramSubscriptionParams) (last_notified_slot : Slot)
    (_bank : Bank) : List RpcKeyedAccount × Slot :=
  let accounts_is_empty := accounts.isEmpty
  let encoding := params.encoding
  let keyed_accounts := accounts.filter fun pa =>
    program_filter_predicate params.filters pa.2
  let out : List RpcKeyedAccount :=
    if params.pubkey = spl_token_id_v2_0
        ∧ params.encoding = UiAccountEncoding.jsonParsed
        ∧ ¬ accounts_is_empty then
      keyed_accounts.map fun pa => ⟨pa.1, UiAccount.parsedToken pa.1 pa.2⟩
    else
      keyed_accounts.map fun pa => ⟨pa.1, UiAccount.encoded pa.1 pa.2 encoding⟩
  (out, last_notified_slot)

/-- Specification-side restatement of the Program filter, following the
spec's words: apply the filter list (all-match conjunction); if the
program pubkey is the SPL-token program, the encoding is jsonParsed and
the FILTERED set is non-empty, emit parsed-token-account values;
otherwise emit generic encodings. -/
def spec_program_results (accounts : List (Pubkey × AccountSharedData))
    (params : ProgramSubscriptionParams) (last_notified_slot : Slot) :
    List RpcKeyedAccount × Slot :=
  let filtered := accounts.filter fun pa =>
    program_filter_predicate params.filters pa.2
  let out : List RpcKeyedAccount :=
    if params.pubkey = spl_token_id_v2_0
        ∧ params.encoding = UiAccountEncoding.jsonParsed
        ∧ filtered ≠ [] then
      filtered.map fun pa => ⟨pa.1, UiAccount.parsedToken pa.1 pa.2⟩
    else
      filtered.map fun pa => ⟨pa.1, UiAccount.encoded pa.1 pa.2 params.encoding⟩
  (out, last_notified_slot)

/-- `LogsSubscriptionKind`. -/
inductive LogsSubscriptionKind
  | all
  | allWithVotes
  | single (pubkey : Pubkey)
deriving DecidableEq, Repr

/-- `LogsSubscriptionParams`. -/
structure LogsSubscriptionParams where
  kind : LogsSubscriptionKind
  commitment : CommitmentLevel
deriving DecidableEq, Repr

/-- `SignatureSubscriptionParams` (signatures modelled as `Nat`). -/
structure SignatureSubscriptionParams where
  signature : Nat
  commitment : CommitmentLevel
  enable_received_notification : Bool
deriving DecidableEq, Repr

/-- `RpcLogsResponse` (signature kept as `Nat` rather than a base58
string). -/
structure RpcLogsResponse where
  signature : Nat
  err : Option Nat
  logs : List String
deriving DecidableEq, Repr

/-- `RpcSignatureResult`. -/
inductive RpcSignatureResult
  | processedSignature (err : Option Nat)
  | receivedSignature
deriving DecidableEq, Repr

/-- The free function `get_transaction_logs`: query the bank (None
pubkey for All / AllWithVotes), and for the `All` kind retain only
non-vote logs. -/
def get_transaction_logs (bank : Bank) (params : LogsSubscriptionParams) :
    Option (List TransactionLogInfo) :=
  let pubkey : Option Pubkey :=
    match params.kind with
    | LogsSubscriptionKind.all | LogsSubscriptionKind.allWithVotes => none
    | LogsSubscriptionKind.single pubkey => some pubkey
  let logs := bank.get_transaction_logs pubkey
  match params.kind with
  | LogsSubscriptionKind.all =>
    logs.map fun ls => ls.filter fun log => ! log.is_vote
  | _ => logs

/-- `filter_logs_results`: one output per log entry; the candidate
last-notified slot passes through unchanged. -/
def filter_logs_results (logs : Option (List TransactionLogInfo))
    (_params : LogsSubscriptionParams) (last_notified_slot : Slot)
    (_bank : Bank) : List RpcLogsResponse × Slot :=
  match logs with
  | none => ([], last_notified_slot)
  | some logs =>
    (logs.map fun log => ⟨log.signature, log.result, log.log_messages⟩,
     last_notified_slot)

/-- `filter_signature_result`: wrap a present status as
`ProcessedSignature`; the candidate last-notified slot passes through
unchanged. -/
def filter_signature_result (result : Option (Option Nat))
    (_params : SignatureSubscriptionParams) (last_notified_slot : Slot)
    (_bank : Bank) : List RpcSignatureResult × Slot :=
  ((result.map fun r => RpcSignatureResult.processedSignature r).toList,
   last_notified_slot)

/-- `SubscriptionParams`: the closed sum of subscription kinds. -/
inductive SubscriptionParams
  | account (params : AccountSubscriptionParams)
  | logs (params : LogsSubscriptionParams)
  | program (params : ProgramSubscriptionParams)
  | signature (params : SignatureSubscriptionParams)
  | slot
  | slotsUpdates
  | root
  | vote
deriving DecidableEq, Repr

/-- The kinds handled by `notify_accounts_logs_programs_signatures`
(everything else falls into the defensive wildcard arm). -/
def SubscriptionParams.is_alps_kind : SubscriptionParams → Bool
  | .account _ | .logs _ | .program _ | .signature _ => true
  | _ => false

/-- `SubscriptionInfo`, restricted to what the engine reads and writes:
its id, its parameters and its mutable last-notified slot. -/
structure SubscriptionInfo where
  id : Nat
  params : SubscriptionParams
  last_notified_slot : Slot
deriving DecidableEq, Repr

/-- The per-kind notification payloads emitted by the match-and-notify
engine, as one sum type. -/
inductive NotificationValue
  | account (value : UiAccount)
  | logs (value : RpcLogsResponse)
  | program (value : RpcKeyedAccount)
  | signature (value : RpcSignatureResult)
deriving DecidableEq, Repr

/-- One iteration of the subscription loop in
`notify_accounts_logs_programs_signatures`: dispatch on the
subscription's kind into the corresponding
`check_commitment_and_notify` instantiation.  The wildcard arm of the
source executes `error!("wrong subscription type in alps map")` and the
loop proceeds to the next subscription; it is modelled as an error-log
count of 1 with no notification and no state change.  Returns the
updated subscription, its notifications and the error-log count.  (The
`is_final = true` flag on the Signature arm only affects the broadcast
message, which is not modelled.) -/
def handle_subscription (bank_forks : BankForks) (cs : CommitmentSlots)
    (sub : SubscriptionInfo) :
    SubscriptionInfo × List (Response NotificationValue) × Nat :=
  match sub.params with
  | SubscriptionParams.account params =>
    let r := check_commitment_and_notify params params.commitment
      sub.last_notified_slot bank_forks cs
      (fun bank params => bank.get_account_modified_slot params.pubkey)
      filter_account_result
    ({ sub with last_notified_slot := r.last_notified_slot },
     r.notifications.map fun n => ⟨n.context, NotificationValue.account n.value⟩, 0)
  | SubscriptionParams.logs params =>
    let r := check_commitment_and_notify params params.commitment
      sub.last_notified_slot bank_forks cs
      get_transaction_logs filter_logs_results
    ({ sub with last_notified_slot := r.last_notified_slot },
     r.notifications.map fun n => ⟨n.context, NotificationValue.logs n.value⟩, 0)
  | SubscriptionParams.program params =>
    let r := check_commitment_and_notify params params.commitment
      sub.last_notified_slot bank_forks cs
      (fun bank params => bank.get_program_accounts_modified_since_parent params.pubkey)
      filter_program_results
    ({ sub with last_notified_slot := r.last_notified_slot },
     r.notifications.map fun n => ⟨n.context, NotificationValue.program n.value⟩, 0)
  | SubscriptionParams.signature params =>
    let r := check_commitment_and_notify params params.commitment
      sub.last_notified_slot bank_forks cs
      (fun bank params => bank.get_signature_status_processed_since_parent params.signature)
      filter_signature_result
    ({ sub with last_notified_slot := r.last_notified_slot },
     r.notifications.map fun n => ⟨n.context, NotificationValue.signature n.value⟩, 0)
  | _ => (sub, [], 1)

/-- `notify_accounts_logs_programs_signatures`: fold the per-
subscription handler over the (commitment- or gossip-) watcher index,
collecting updated subscriptions, notifications in iteration order, and
the total count of defensive error logs.  Telemetry is not modelled. -/
def notify_accounts_logs_programs_signatures (bank_forks : BankForks)
    (cs : CommitmentSlots) :
    List SubscriptionInfo →
      List SubscriptionInfo × List (Response NotificationValue) × Nat
  | [] => ([], [], 0)
  | sub :: rest =>
    let r := handle_subscription bank_forks cs sub
    let rr := notify_accounts_logs_programs_signatures bank_forks cs rest
    (r.1 :: rr.1, r.2.1 ++ rr.2.1, r.2.2 + rr.2.2)

/-- The `SignaturesReceived` visit of `process_notifications` over one
signature's subscription set (the by-signature index): a Signature
subscription with `enable_received_notification` emits one
`ReceivedSignature` notification at the given slot; a Signature
subscription without the flag emits nothing; any other kind executes
`error!("invalid params type in visit_by_signature")` and the loop
proceeds — modelled as an error-log count. -/
def visit_by_signature (slot : Slot) :
    List SubscriptionInfo → List (Response RpcSignatureResult) × Nat
  | [] => ([], 0)
  | sub :: rest =>
    let r := visit_by_signature slot rest
    match sub.params with
    | SubscriptionParams.signature params =>
      if params.enable_received_notification then
        (⟨⟨slot⟩, RpcSignatureResult.receivedSignature⟩ :: r.1, r.2)
      else
        (r.1, r.2)
    | _ => (r.1, r.2 + 1)

/-- `RecentItems`: the bounded FIFO of serialized notification payloads
(`Arc<String>` handles modelled as the strings themselves; what the
accounting reads is only their length). -/
structure RecentItems where
  queue : List String
  total_bytes : Nat
  max_len : Nat
  max_total_bytes : Nat
deriving DecidableEq, Repr

/-- `RecentItems::new`. -/
def RecentItems.new (max_len max_total_bytes : Nat) : RecentItems :=
  { queue := [], total_bytes := 0, max_len := max_len,
    max_total_bytes := max_total_bytes }

/-- The eviction loop of `RecentItems::push`: while the byte total
exceeds `max_total_bytes` or the count exceeds `max_len`, pop the front
item and subtract its length (`checked_sub`; under the byte-accounting
invariant the subtraction never underflows, and the
`expect("can't be empty")` is unreachable: an empty queue with correct
accounting has `total_bytes = 0`, so the loop condition fails and the
base case returns). -/
def evict_loop (max_len max_total_bytes : Nat) :
    List String → Nat → List String × Nat
  | [], total_bytes => ([], total_bytes)
  | item :: rest, total_bytes =>
    if total_bytes > max_total_bytes ∨ (item :: rest).length > max_len then
      evict_loop max_len max_total_bytes rest (total_bytes - item.length)
    else
      (item :: rest, total_bytes)

/-- `RecentItems::push`: add the item's length (`checked_add`; `Nat`
cannot wrap), append at the back, then run the eviction loop.  The
telemetry datapoint is not modelled. -/
def RecentItems.push (self : RecentItems) (item : String) : RecentItems :=
  let total_bytes := self.total_bytes + item.length
  let queue := self.queue ++ [item]
  let qt := evict_loop self.max_len self.max_total_bytes queue total_bytes
  { queue := qt.1, total_bytes := qt.2, max_len := self.max_len,
    max_total_bytes := self.max_total_bytes }

/-- A sequence of pushes. -/
def RecentItems.push_many (self : RecentItems) (items : List String) : RecentItems :=
  items.foldl RecentItems.push self

/-- The byte-accounting invariant: `total_bytes` is the sum of the
lengths of the retained payloads. -/
def RecentItems.bytes_ok (self : RecentItems) : Prop :=
  self.total_bytes = (self.queue.map String.length).sum

/-- The slot-update variants the control surface constructs
(`SlotUpdate` is external; its wall-clock `timestamp` field is not
modelled). -/
inductive SlotUpdateM
  | createdBank (slot : Slot) (parent : Slot)
  | root (slot : Slot)
deriving DecidableEq, Repr

/-- The notification-entry variants `notify_roots` enqueues. -/
inductive NotificationEntry
  | slotUpdate (update : SlotUpdateM)
  | root (slot : Slot)
deriving DecidableEq, Repr

/-- `notify_roots`: sort the rooted slots ascending
(`sort_unstable`; over `Nat` the ascending sort is unique, so the
choice of algorithm is immaterial), then for each slot enqueue a `Root`
slot-update followed by a `Root` entry.  Returns the enqueued entries
in order. -/
def notify_roots (rooted_slots : List Slot) : List NotificationEntry :=
  (List.insertionSort (· ≤ ·) rooted_slots).foldl
    (fun acc root =>
      acc ++ [NotificationEntry.slotUpdate (SlotUpdateM.root root),
              NotificationEntry.root root])
    []

/-- The Root notifications, in order, among a stream of enqueued
entries. -/
def root_notifications (entries : List NotificationEntry) : List Slot :=
  entries.filterMap fun e =>
    match e with
    | NotificationEntry.root s => some s
    | _ => none

/-! ## Theorems -/

/-- Claim C2: the slot queried is determined by the subscription's
commitment level: finalized maps to `highest_confirmed_root`, confirmed
to `highest_confirmed_slot`, and processed to `slot` (the processed
tip). -/
theorem C2_commitment_resolution :
    ∀ cs : CommitmentSlots,
      resolve_commitment_slot CommitmentLevel.finalized cs = cs.highest_confirmed_root
      ∧ resolve_commitment_slot CommitmentLevel.confirmed cs = cs.highest_confirmed_slot
      ∧ resolve_commitment_slot CommitmentLevel.processed cs = cs.slot := by
  intro cs
  refine ⟨rfl, rfl, rfl⟩

/-- Unfolding of the notify loop of `check_commitment_and_notify`: each
filtered value becomes one notification; `last_notified_slot` is
overwritten with the filter's candidate slot exactly when at least one
value is emitted; `notified` records whether any value was emitted. -/
theorem check_loop_eq {S : Type} (slot rs : Slot) (fr : List S)
    (ns : List (Response S)) (l : Slot) (b : Bool) :
    fr.foldl
        (fun (acc : NotifyResult S) result =>
          ⟨acc.notifications ++ [⟨⟨slot⟩, result⟩], rs, true⟩)
        ⟨ns, l, b⟩
      = ⟨ns ++ fr.map (fun r => ⟨⟨slot⟩, r⟩),
         if fr.isEmpty then l else rs, b || !fr.isEmpty⟩ := by
  induction fr generalizing ns l b with
  | nil => simp
  | cons x xs ih => simp [List.foldl, ih]

/-- Characterization of `notify_account` when the bank exists: the
output is the account filter's sequence wrapped in response envelopes,
and state advances to the candidate slot only on emission. -/
theorem notify_account_eq (params : AccountSubscriptionParams) (lns : Slot)
    (bank_forks : BankForks) (cs : CommitmentSlots) (bank : Bank)
    (h : bank_forks (resolve_commitment_slot params.commitment cs) = some bank) :
    notify_account params lns bank_forks cs =
      let fr := filter_account_result (bank.get_account_modified_slot params.pubkey)
        params lns bank
      ⟨fr.1.map (fun r => ⟨⟨resolve_commitment_slot params.commitment cs⟩, r⟩),
       if fr.1.isEmpty then lns else fr.2, !fr.1.isEmpty⟩ := by
  simp only [notify_account, check_commitment_and_notify, h, check_loop_eq]
  simp

/-- Claim C1: with last-notified-slot S1, a Bank event whose resolved
bank reports the account modified at S2 with S2 ≠ S1 emits exactly one
notification and sets last-notified-slot to S2 (even when S2 < S1);
when S2 = S1 the event is suppressed: strict equality, not ordering. -/
theorem C1_fork_revert (params : AccountSubscriptionParams) (S1 S2 : Slot)
    (account : AccountSharedData) (bank : Bank) (bank_forks : BankForks)
    (cs : CommitmentSlots)
    (hbank : bank_forks (resolve_commitment_slot params.commitment cs) = some bank)
    (hget : bank.get_account_modified_slot params.pubkey = some (account, S2)) :
    (S2 ≠ S1 →
       (notify_account params S1 bank_forks cs).notifications.length = 1
       ∧ (notify_account params S1 bank_forks cs).last_notified_slot = S2
       ∧ (notify_account params S1 bank_forks cs).notified = true)
    ∧ (S2 = S1 → notify_account params S1 bank_forks cs = ⟨[], S1, false⟩) := by
  constructor
  · intro hne
    by_cases howner : account.owner = spl_token_id_v2_0
        ∧ params.encoding = UiAccountEncoding.jsonParsed
    · simp [notify_account_eq params S1 bank_forks cs bank hbank,
        filter_account_result, hget, hne, howner]
    · simp [notify_account_eq params S1 bank_forks cs bank hbank,
        filter_account_result, hget, hne, howner]
  · intro heq
    simp [notify_account_eq params S1 bank_forks cs bank hbank,
      filter_account_result, hget, heq]

/-- Witness for C1 at a concrete fork revert: S1 = 5, S2 = 3 < S1. -/
theorem C1_fork_revert_witness :
    (notify_account ⟨42, CommitmentLevel.processed, UiAccountEncoding.base64⟩ 5
        bank_forks_fix1 ⟨9, 9, 9⟩).notifications.length = 1
    ∧ (notify_account ⟨42, CommitmentLevel.processed, UiAccountEncoding.base64⟩ 5
        bank_forks_fix1 ⟨9, 9, 9⟩).last_notified_slot = 3 := by
  have h := (C1_fork_revert ⟨42, CommitmentLevel.processed, UiAccountEncoding.base64⟩ 5 3
    AccountSharedData.default_account bank_fix1 bank_forks_fix1 ⟨9, 9, 9⟩
    (by simp [bank_forks_fix1, resolve_commitment_slot]) rfl).1 (by simp)
  exact ⟨h.1, h.2.1⟩

/-- Claim C4: if the account query at the resolved bank returns nothing,
the candidate modified slot defaults to 0; a subscription with non-zero
last-notified-slot emits exactly one notification carrying the
zero-valued (default) account and resets last-notified-slot to 0; a
subscription already at 0 emits nothing. -/
theorem C4_account_deletion (params : AccountSubscriptionParams) (lns : Slot)
    (bank : Bank) (bank_forks : BankForks) (cs : CommitmentSlots)
    (hbank : bank_forks (resolve_commitment_slot params.commitment cs) = some bank)
    (hget : bank.get_account_modified_slot params.pubkey = none) :
    (lns ≠ 0 →
       notify_account params lns bank_forks cs =
         ⟨[⟨⟨resolve_commitment_slot params.commitment cs⟩,
            UiAccount.encoded params.pubkey AccountSharedData.default_account
              params.encoding⟩],
          0, true⟩)
    ∧ (lns = 0 → notify_account params lns bank_forks cs = ⟨[], 0, false⟩) := by
  constructor
  · intro hne
    simp [notify_account_eq params lns bank_forks cs bank hbank,
      filter_account_result, hget, Ne.symm hne,
      AccountSharedData.default_account, spl_token_id_v2_0]
  · intro heq
    subst heq
    simp [notify_account_eq params 0 bank_forks cs bank hbank,
      filter_account_result, hget]

/-- Witness for C4: a deleted account at last-notified-slot 7 emits the
zero-valued account and resets to 0; at last-notified-slot 0 it emits
nothing. -/
theorem C4_account_deletion_witness :
    (notify_account ⟨42, CommitmentLevel.processed, UiAccountEncoding.base64⟩ 7
        bank_forks_fix_deleted ⟨9, 9, 9⟩ =
      ⟨[⟨⟨9⟩, UiAccount.encoded 42 AccountSharedData.default_account
          UiAccountEncoding.base64⟩], 0, true⟩)
    ∧ notify_account ⟨42, CommitmentLevel.processed, UiAccountEncoding.base64⟩ 0
        bank_forks_fix_deleted ⟨9, 9, 9⟩ = ⟨[], 0, false⟩ := by
  have h := C4_account_deletion ⟨42, CommitmentLevel.processed, UiAccountEncoding.base64⟩ 7
    bank_fix_deleted bank_forks_fix_deleted ⟨9, 9, 9⟩
    (by simp [bank_forks_fix_deleted, resolve_commitment_slot]) rfl
  have h0 := C4_account_deletion ⟨42, CommitmentLevel.processed, UiAccountEncoding.base64⟩ 0
    bank_fix_deleted bank_forks_fix_deleted ⟨9, 9, 9⟩
    (by simp [bank_forks_fix_deleted, resolve_commitment_slot]) rfl
  exact ⟨h.1 (by simp), h0.2 rfl⟩

/-- Claim C5: when the bank-forks collaborator has no bank at the
commitment-resolved slot, `check_commitment_and_notify` skips the
subscription: no notification, `last_notified_slot` unchanged, and the
returned flag reports not-notified (no error surfaces). -/
theorem C5_missing_bank {P X S : Type} (params : P) (commitment : CommitmentLevel)
    (lns : Slot) (bank_forks : BankForks) (cs : CommitmentSlots)
    (bank_method : Bank → P → X)
    (filter_results : X → P → Slot → Bank → List S × Slot)
    (h : bank_forks (resolve_commitment_slot commitment cs) = none) :
    check_commitment_and_notify params commitment lns bank_forks cs
        bank_method filter_results = ⟨[], lns, false⟩ := by
  simp [check_commitment_and_notify, h]

/-- Witness for C5 on a concrete Account subscription over empty
bank-forks. -/
theorem C5_missing_bank_witness :
    check_commitment_and_notify
        (⟨42, CommitmentLevel.processed, UiAccountEncoding.base64⟩ :
          AccountSubscriptionParams)
        CommitmentLevel.processed 5 bank_forks_empty ⟨9, 9, 9⟩
        (fun bank params => bank.get_account_modified_slot params.pubkey)
        filter_account_result
      = ⟨[], 5, false⟩ :=
  C5_missing_bank _ _ _ _ _ _ _ rfl

/-- Helper: with no bank at the resolved slot, `notify_account` is the
identity on state. -/
theorem notify_account_missing (params : AccountSubscriptionParams) (lns : Slot)
    (bank_forks : BankForks) (cs : CommitmentSlots)
    (h : bank_forks (resolve_commitment_slot params.commitment cs) = none) :
    notify_account params lns bank_forks cs = ⟨[], lns, false⟩ :=
  C5_missing_bank _ _ _ _ _ _ _ h

/-- Helper: when the queried modified slot equals the current
last-notified slot, the event is suppressed and state is unchanged. -/
theorem notify_account_suppressed (params : AccountSubscriptionParams)
    (bank_forks : BankForks) (cs : CommitmentSlots) (m : Slot)
    (h : queried_modified_slot params bank_forks cs = some m) :
    notify_account params m bank_forks cs = ⟨[], m, false⟩ := by
  rcases hb : bank_forks (resolve_commitment_slot params.commitment cs) with _ | bank
  · simp [queried_modified_slot, hb] at h
  · have hm : ((bank.get_account_modified_slot params.pubkey).getD
        (AccountSharedData.default_account, 0)).2 = m := by
      simpa [queried_modified_slot, hb] using h
    simp [notify_account_eq params m bank_forks cs bank hb, filter_account_result, hm]

/-- Helper: when the queried modified slot differs from the current
last-notified slot, exactly one notification is emitted and the state
advances to the queried slot. -/
theorem notify_account_fresh (params : AccountSubscriptionParams) (lns : Slot)
    (bank_forks : BankForks) (cs : CommitmentSlots) (m : Slot)
    (h : queried_modified_slot params bank_forks cs = some m) (hne : m ≠ lns) :
    (notify_account params lns bank_forks cs).notifications.length = 1
    ∧ (notify_account params lns bank_forks cs).last_notified_slot = m := by
  rcases hb : bank_forks (resolve_commitment_slot params.commitment cs) with _ | bank
  · simp [queried_modified_slot, hb] at h
  · have hm : ((bank.get_account_modified_slot params.pubkey).getD
        (AccountSharedData.default_account, 0)).2 = m := by
      simpa [queried_modified_slot, hb] using h
    by_cases howner : ((bank.get_account_modified_slot params.pubkey).getD
          (AccountSharedData.default_account, 0)).1.owner = spl_token_id_v2_0
        ∧ params.encoding = UiAccountEncoding.jsonParsed
    · simp [notify_account_eq params lns bank_forks cs bank hb,
        filter_account_result, hm, hne, howner]
    · simp [notify_account_eq params lns bank_forks cs bank hb,
        filter_account_result, hm, hne, howner]

/-- Helper: once the last-notified slot equals the queried modified
slot, any number of further identical events emit nothing and leave the
state unchanged. -/
theorem account_events_stable (params : AccountSubscriptionParams)
    (bank_forks : BankForks) (cs : CommitmentSlots) (m : Slot)
    (h : queried_modified_slot params bank_forks cs = some m) :
    ∀ n : Nat, account_events params bank_forks cs n m = ([], m) := by
  intro n
  induction n with
  | zero => rfl
  | succ k ih =>
    simp [account_events, notify_account_suppressed params bank_forks cs m h, ih]

/-- Helper: with no bank at the resolved slot, any number of events
emit nothing and leave the state unchanged. -/
theorem account_events_missing (params : AccountSubscriptionParams)
    (bank_forks : BankForks) (cs : CommitmentSlots) (lns : Slot)
    (h : bank_forks (resolve_commitment_slot params.commitment cs) = none) :
    ∀ n : Nat, account_events params bank_forks cs n lns = ([], lns) := by
  intro n
  induction n with
  | zero => rfl
  | succ k ih =>
    simp [account_events, notify_account_missing params lns bank_forks cs h, ih]

/-- Claim C3: a sequence of identical Bank events for an Account
subscription produces at most one notification in total, and once the
last-notified slot equals the queried modified slot every further
identical event is suppressed with the state unchanged. -/
theorem C3_dedup (params : AccountSubscriptionParams) (bank_forks : BankForks)
    (cs : CommitmentSlots) (n : Nat) (lns : Slot) :
    (account_events params bank_forks cs n lns).1.length ≤ 1
    ∧ (∀ m, queried_modified_slot params bank_forks cs = some m →
        account_events params bank_forks cs n m = ([], m)) := by
  refine ⟨?_, fun m hm => account_events_stable params bank_forks cs m hm n⟩
  match n with
  | 0 => simp [account_events]
  | Nat.succ k =>
    rcases hb : bank_forks (resolve_commitment_slot params.commitment cs) with _ | bank
    · simp [account_events, notify_account_missing params lns bank_forks cs hb,
        account_events_missing params bank_forks cs lns hb]
    · have hq : queried_modified_slot params bank_forks cs =
          some ((bank.get_account_modified_slot params.pubkey).getD
            (AccountSharedData.default_account, 0)).2 := by
        simp [queried_modified_slot, hb]
      set m := ((bank.get_account_modified_slot params.pubkey).getD
        (AccountSharedData.default_account, 0)).2 with hmdef
      by_cases hm : m = lns
      · subst hm
        simp [account_events, notify_account_suppressed params bank_forks cs m hq,
          account_events_stable params bank_forks cs m hq]
      · have hf := notify_account_fresh params lns bank_forks cs m hq hm
        have hrest := account_events_stable params bank_forks cs m hq k
        simp [account_events, hf.2, hrest, hf.1]

/-- Witness for C3: five identical events starting from last-notified
slot 5, against a bank reporting modified slot 3, emit one notification
in total; five events starting at 3 emit none. -/
theorem C3_dedup_witness :
    (account_events ⟨42, CommitmentLevel.processed, UiAccountEncoding.base64⟩
        bank_forks_fix1 ⟨9, 9, 9⟩ 5 5).1.length ≤ 1
    ∧ account_events ⟨42, CommitmentLevel.processed, UiAccountEncoding.base64⟩
        bank_forks_fix1 ⟨9, 9, 9⟩ 5 3 = ([], 3) := by
  have h := C3_dedup ⟨42, CommitmentLevel.processed, UiAccountEncoding.base64⟩
    bank_forks_fix1 ⟨9, 9, 9⟩ 5 5
  refine ⟨h.1, h.2 3 ?_⟩
  simp [queried_modified_slot, bank_forks_fix1, resolve_commitment_slot, bank_fix1]

/-- Claim C6: the emitted values of the Program filter coincide with the
spec's description: the filtered set (all-match conjunction of data-size
and memcmp filters) is emitted as parsed-token-account values exactly
when the subscription is for the SPL-token program with jsonParsed
encoding and that filtered set is non-empty, and as generic encodings
otherwise.  (The source branches on emptiness of the raw account list,
but when the filtered set is empty both branches emit nothing, so the
outputs agree.) -/
theorem C6_program_filter (accounts : List (Pubkey × AccountSharedData))
    (params : ProgramSubscriptionParams) (lns : Slot) (bank : Bank) :
    filter_program_results accounts params lns bank =
      spec_program_results accounts params lns := by
  simp only [filter_program_results, spec_program_results]
  by_cases hspl : params.pubkey = spl_token_id_v2_0
      ∧ params.encoding = UiAccountEncoding.jsonParsed
  · by_cases hfe : accounts.filter (fun pa =>
        program_filter_predicate params.filters pa.2) = []
    · simp [hfe]
    · have hne : accounts ≠ [] := by
        intro h
        subst h
        simp at hfe
      simp [hspl.1, hspl.2, hfe, List.isEmpty_iff, hne]
  · have h1 : ¬ (params.pubkey = spl_token_id_v2_0
        ∧ params.encoding = UiAccountEncoding.jsonParsed
        ∧ ¬ accounts.isEmpty) := by
      intro h
      exact hspl ⟨h.1, h.2.1⟩
    have h2 : ¬ (params.pubkey = spl_token_id_v2_0
        ∧ params.encoding = UiAccountEncoding.jsonParsed
        ∧ accounts.filter (fun pa =>
            program_filter_predicate params.filters pa.2) ≠ []) := by
      intro h
      exact hspl ⟨h.1, h.2.1⟩
    rw [if_neg h1, if_neg h2]

/-- Helper: the eviction loop, run on a queue whose byte accounting is
correct, returns correct accounting, both caps satisfied, and a trailing
segment of the input queue (eviction removes only from the front). -/
theorem evict_loop_spec (maxL maxB : Nat) :
    ∀ (q : List String) (tb : Nat), tb = (q.map String.length).sum →
      (evict_loop maxL maxB q tb).2
          = ((evict_loop maxL maxB q tb).1.map String.length).sum
      ∧ (evict_loop maxL maxB q tb).2 ≤ maxB
      ∧ (evict_loop maxL maxB q tb).1.length ≤ maxL
      ∧ ∃ k, (evict_loop maxL maxB q tb).1 = q.drop k := by
  intro q
  induction q with
  | nil =>
    intro tb htb
    simp only [evict_loop]
    simp only [List.map_nil, List.sum_nil] at htb
    exact ⟨by simp [htb], by simp [htb], by simp, ⟨0, rfl⟩⟩
  | cons item rest ih =>
    intro tb htb
    simp only [List.map_cons, List.sum_cons] at htb
    by_cases hc : tb > maxB ∨ (item :: rest).length > maxL
    · have htb' : tb - item.length = (rest.map String.length).sum := by omega
      have hrec := ih (tb - item.length) htb'
      simp only [evict_loop, if_pos hc]
      refine ⟨hrec.1, hrec.2.1, hrec.2.2.1, ?_⟩
      obtain ⟨k, hk⟩ := hrec.2.2.2
      exact ⟨k + 1, by rw [List.drop_succ_cons]; exact hk⟩
    · push_neg at hc
      simp only [evict_loop, if_neg (by omega : ¬ (tb > maxB ∨ (item :: rest).length > maxL))]
      exact ⟨by simp [htb], hc.1, hc.2, ⟨0, rfl⟩⟩

/-- Helper: the sum of the lengths of payloads that all have length B
is B times the count. -/
theorem sum_map_length_const (B : Nat) :
    ∀ l : List String, (∀ x ∈ l, x.length = B) →
      (l.map String.length).sum = B * l.length := by
  intro l
  induction l with
  | nil => intro _; simp
  | cons x xs ih =>
    intro h
    have hx : x.length = B := h x (by simp)
    have hxs : ∀ y ∈ xs, y.length = B := fun y hy => h y (by simp [hy])
    simp only [List.map_cons, List.sum_cons, List.length_cons, ih hxs, hx]
    ring

/-- Helper: one `push` on a correctly accounted buffer reestablishes
the accounting invariant, satisfies both caps, evicts only from the
front, and leaves the caps themselves unchanged. -/
theorem push_spec (r : RecentItems) (item : String) (h : r.bytes_ok) :
    (r.push item).bytes_ok
    ∧ (r.push item).queue.length ≤ r.max_len
    ∧ (r.push item).total_bytes ≤ r.max_total_bytes
    ∧ (∃ k, (r.push item).queue = (r.queue ++ [item]).drop k)
    ∧ (r.push item).max_len = r.max_len
    ∧ (r.push item).max_total_bytes = r.max_total_bytes := by
  have htb : r.total_bytes + item.length
      = ((r.queue ++ [item]).map String.length).sum := by
    rw [RecentItems.bytes_ok] at h
    simp [h]
  have hs := evict_loop_spec r.max_len r.max_total_bytes (r.queue ++ [item]) _ htb
  simp only [RecentItems.push, RecentItems.bytes_ok]
  exact ⟨hs.1, hs.2.2.1, hs.2.1, hs.2.2.2, by trivial, by trivial⟩

/-- Helper: a sequence of pushes of payloads that all have length B,
starting from a correctly accounted buffer of B-length payloads within
its caps, ends in such a buffer. -/
theorem push_many_aux (B : Nat) :
    ∀ (items : List String) (r : RecentItems),
      (∀ it ∈ items, it.length = B) →
      r.bytes_ok → (∀ x ∈ r.queue, x.length = B) →
      r.queue.length ≤ r.max_len → r.total_bytes ≤ r.max_total_bytes →
      (r.push_many items).bytes_ok
      ∧ (∀ x ∈ (r.push_many items).queue, x.length = B)
      ∧ (r.push_many items).max_len = r.max_len
      ∧ (r.push_many items).max_total_bytes = r.max_total_bytes
      ∧ (r.push_many items).queue.length ≤ r.max_len
      ∧ (r.push_many items).total_bytes ≤ r.max_total_bytes := by
  intro items
  induction items with
  | nil =>
    intro r _ h1 h2 h3 h4
    exact ⟨h1, h2, rfl, rfl, h3, h4⟩
  | cons it its ih =>
    intro r hB h1 h2 h3 h4
    have hp := push_spec r it h1
    have hall : ∀ x ∈ (r.push it).queue, x.length = B := by
      obtain ⟨k, hk⟩ := hp.2.2.2.1
      intro x hx
      rw [hk] at hx
      rcases List.mem_append.1 (List.drop_subset _ _ hx) with hmem | hmem
      · exact h2 x hmem
      · simp only [List.mem_singleton] at hmem
        subst hmem
        exact hB x (by simp)
    have hstep := ih (r.push it) (fun y hy => hB y (by simp [hy])) hp.1 hall
      (hp.2.2.2.2.1 ▸ hp.2.1) (hp.2.2.2.2.2 ▸ hp.2.2.1)
    have hm : (r.push_many (it :: its)) = (r.push it).push_many its := rfl
    rw [hm]
    exact ⟨hstep.1, hstep.2.1,
      hstep.2.2.1.trans hp.2.2.2.2.1,
      hstep.2.2.2.1.trans hp.2.2.2.2.2,
      hstep.2.2.2.2.1.trans_eq hp.2.2.2.2.1,
      hstep.2.2.2.2.2.trans_eq hp.2.2.2.2.2⟩

/-- Claim C7: after each insert the recent-items buffer holds at most
`max_len` payloads and at most `max_total_bytes` payload bytes, with
`total_bytes` equal to the sum of retained payload lengths; eviction
removes payloads from the front only (the retained queue is a trailing
segment of the appended queue); and after any sequence of inserts each
of B > 0 bytes with caps (L, M) the buffer retains at most
min(L, M / B) payloads. -/
theorem C7_recent_items_bounds :
    (∀ (r : RecentItems) (item : String), r.bytes_ok →
       (r.push item).bytes_ok
       ∧ (r.push item).queue.length ≤ r.max_len
       ∧ (r.push item).total_bytes ≤ r.max_total_bytes
       ∧ ∃ k, (r.push item).queue = (r.queue ++ [item]).drop k)
    ∧ (∀ (L M B : Nat) (items : List String), 0 < B →
        (∀ it ∈ items, it.length = B) →
        ((RecentItems.new L M).push_many items).queue.length ≤ min L (M / B)) := by
  constructor
  · intro r item h
    have hp := push_spec r item h
    exact ⟨hp.1, hp.2.1, hp.2.2.1, hp.2.2.2.1⟩
  · intro L M B items hB hlen
    have h := push_many_aux B items (RecentItems.new L M) hlen rfl
      (by simp [RecentItems.new]) (by simp [RecentItems.new]) (by simp [RecentItems.new])
    have hlenL : ((RecentItems.new L M).push_many items).queue.length ≤ L := by
      simpa [RecentItems.new] using h.2.2.2.2.1
    have hbytesM : ((RecentItems.new L M).push_many items).total_bytes ≤ M := by
      simpa [RecentItems.new] using h.2.2.2.2.2
    have hsum := sum_map_length_const B ((RecentItems.new L M).push_many items).queue h.2.1
    have hbo := h.1
    rw [RecentItems.bytes_ok] at hbo
    rw [hbo, hsum] at hbytesM
    refine le_min hlenL ?_
    rw [Nat.le_div_iff_mul_le hB, Nat.mul_comm]
    exact hbytesM

/-- Witness for C7: pushing "ab" into an empty (2, 3)-capped buffer
keeps at most 2 payloads; three 2-byte pushes under caps L = 2, M = 3
retain at most min 2 (3 / 2) = 1 payload. -/
theorem C7_recent_items_bounds_witness :
    ((RecentItems.new 2 3).push "ab").queue.length ≤ 2
    ∧ ((RecentItems.new 2 3).push_many ["ab", "cd", "ef"]).queue.length
        ≤ min 2 (3 / 2) := by
  constructor
  · exact (C7_recent_items_bounds.1 (RecentItems.new 2 3) "ab"
      (by simp [RecentItems.new, RecentItems.bytes_ok])).2.1
  · exact C7_recent_items_bounds.2 2 3 2 ["ab", "cd", "ef"] (by decide) (by decide)

/-- Helper: a trailing segment of `l ++ [a]` is either empty or still
contains `a`. -/
theorem drop_append_last_mem (a : String) :
    ∀ (l : List String) (k : Nat),
      (l ++ [a]).drop k = [] ∨ a ∈ (l ++ [a]).drop k := by
  intro l
  induction l with
  | nil =>
    intro k
    match k with
    | 0 => right; simp
    | k + 1 => left; simp
  | cons x xs ih =>
    intro k
    match k with
    | 0 => right; simp
    | k + 1 => simpa using ih k

/-- Claim C10: pushing a payload longer than `max_total_bytes` into a
correctly accounted buffer makes the eviction loop remove everything,
including the just-inserted payload itself: the buffer ends empty with
`total_bytes = 0`, so no strong reference to the newest payload
remains. -/
theorem C10_oversized_payload (r : RecentItems) (item : String)
    (h : r.bytes_ok) (hbig : r.max_total_bytes < item.length) :
    (r.push item).queue = [] ∧ (r.push item).total_bytes = 0 := by
  have hp := push_spec r item h
  obtain ⟨k, hk⟩ := hp.2.2.2.1
  rcases drop_append_last_mem item r.queue k with hnil | hmem
  · have hq : (r.push item).queue = [] := by rw [hk, hnil]
    refine ⟨hq, ?_⟩
    have hbo := hp.1
    rw [RecentItems.bytes_ok, hq] at hbo
    simpa using hbo
  · exfalso
    have hmem' : item ∈ (r.push item).queue := by rw [hk]; exact hmem
    have hle : item.length ≤ (((r.push item).queue).map String.length).sum :=
      List.single_le_sum (fun b _ => Nat.zero_le b) _
        (List.mem_map_of_mem String.length hmem')
    have hbo := hp.1
    rw [RecentItems.bytes_ok] at hbo
    have hcap := hp.2.2.1
    omega

/-- Witness for C10: pushing the 4-byte payload "abcd" into an empty
buffer capped at 3 bytes leaves the buffer empty. -/
theorem C10_oversized_payload_witness :
    ((RecentItems.new 5 3).push "abcd").queue = []
    ∧ ((RecentItems.new 5 3).push "abcd").total_bytes = 0 :=
  C10_oversized_payload (RecentItems.new 5 3) "abcd" rfl (by decide)

/-- Helper: the enqueue fold of `notify_roots` appends, per slot in
order, the slot-update entry then the root entry. -/
theorem notify_roots_foldl_eq :
    ∀ (l : List Slot) (acc : List NotificationEntry),
      l.foldl
          (fun acc root =>
            acc ++ [NotificationEntry.slotUpdate (SlotUpdateM.root root),
                    NotificationEntry.root root]) acc
        = acc ++ l.bind (fun s =>
            [NotificationEntry.slotUpdate (SlotUpdateM.root s),
             NotificationEntry.root s]) := by
  intro l
  induction l with
  | nil => intro acc; simp
  | cons x xs ih => intro acc; simp [List.foldl, ih]

/-- Helper: extracting the Root notifications from the per-slot pairs
recovers the slot list. -/
theorem root_notifications_bind (l : List Slot) :
    root_notifications (l.bind fun s =>
        [NotificationEntry.slotUpdate (SlotUpdateM.root s),
         NotificationEntry.root s]) = l := by
  induction l with
  | nil => rfl
  | cons x xs ih =>
    simp only [root_notifications] at ih ⊢
    simp [ih]

/-- Claim C8: `notify_roots` sorts the slot list ascending and, per
slot in that order, enqueues a Root slot-update followed by a Root
entry; the emitted Root notifications are sorted ascending and are a
permutation of the input; in particular `notify_roots [2, 1, 3]` emits
Root notifications 1, 2, 3 in that order. -/
theorem C8_root_ordering :
    (∀ slots : List Slot,
       notify_roots slots =
         (List.insertionSort (· ≤ ·) slots).bind
           (fun s => [NotificationEntry.slotUpdate (SlotUpdateM.root s),
                      NotificationEntry.root s])
       ∧ List.Sorted (· ≤ ·) (root_notifications (notify_roots slots))
       ∧ (root_notifications (notify_roots slots)).Perm slots)
    ∧ root_notifications (notify_roots [2, 1, 3]) = [1, 2, 3] := by
  constructor
  · intro slots
    have h1 : notify_roots slots =
        (List.insertionSort (· ≤ ·) slots).bind
          (fun s => [NotificationEntry.slotUpdate (SlotUpdateM.root s),
                     NotificationEntry.root s]) := by
      simp [notify_roots, notify_roots_foldl_eq]
    refine ⟨h1, ?_, ?_⟩
    · rw [h1, root_notifications_bind]
      exact List.sorted_insertionSort _ _
    · rw [h1, root_notifications_bind]
      exact List.perm_insertionSort _ _
  · decide

/-- Counterexample to claim C9: processing an index that contains a
wrong-kind (Slot) entry does NOT abort: the engine logs one defensive
error for it and CONTINUES, still processing the Account subscription
that follows it (whose notification is emitted and whose state is
updated).  Under the claim, processing would have stopped at the first
entry and no notification could have been produced. -/
theorem C9_wrong_kind_counterexample :
    notify_accounts_logs_programs_signatures bank_forks_fix1 ⟨9, 9, 9⟩
        [⟨1, SubscriptionParams.slot, 0⟩,
         ⟨2, SubscriptionParams.account
            ⟨42, CommitmentLevel.processed, UiAccountEncoding.base64⟩, 0⟩]
      = ([⟨1, SubscriptionParams.slot, 0⟩,
          ⟨2, SubscriptionParams.account
             ⟨42, CommitmentLevel.processed, UiAccountEncoding.base64⟩, 3⟩],
         [⟨⟨9⟩, NotificationValue.account (UiAccount.encoded 42
            AccountSharedData.default_account UiAccountEncoding.base64)⟩],
         1) := by
  decide

/-- Claim C9 as amended: encountering an unexpected subscription kind
in a kind-specific index (a non-Account/Logs/Program/Signature entry in
the commitment- or gossip-watcher index, or a non-Signature entry in
the by-signature index) logs one defensive error message and skips that
entry; processing continues with the remaining subscriptions and the
process is not aborted. -/
theorem C9_wrong_kind_logged_and_skipped :
    (∀ (bank_forks : BankForks) (cs : CommitmentSlots)
       (sub : SubscriptionInfo) (rest : List SubscriptionInfo),
       sub.params.is_alps_kind = false →
       notify_accounts_logs_programs_signatures bank_forks cs (sub :: rest)
         = (sub :: (notify_accounts_logs_programs_signatures bank_forks cs rest).1,
            (notify_accounts_logs_programs_signatures bank_forks cs rest).2.1,
            1 + (notify_accounts_logs_programs_signatures bank_forks cs rest).2.2))
    ∧ (∀ (slot : Slot) (sub : SubscriptionInfo) (rest : List SubscriptionInfo),
       (∀ params, sub.params ≠ SubscriptionParams.signature params) →
       visit_by_signature slot (sub :: rest)
         = ((visit_by_signature slot rest).1,
            (visit_by_signature slot rest).2 + 1)) := by
  constructor
  · intro bank_forks cs sub rest h
    have hh : handle_subscription bank_forks cs sub = (sub, [], 1) := by
      cases hp : sub.params
      case account params => simp [SubscriptionParams.is_alps_kind, hp] at h
      case logs params => simp [SubscriptionParams.is_alps_kind, hp] at h
      case program params => simp [SubscriptionParams.is_alps_kind, hp] at h
      case signature params => simp [SubscriptionParams.is_alps_kind, hp] at h
      all_goals simp [handle_subscription, hp]
    simp [notify_accounts_logs_programs_signatures, hh]
  · intro slot sub rest h
    cases hp : sub.params
    case signature params => exact absurd hp (h params)
    all_goals simp [visit_by_signature, hp]

/-- Witness for the amended C9: a lone Vote entry in the commitment
index yields no notification and one error log; a lone Root entry in
the by-signature index yields no notification and one error log. -/
theorem C9_wrong_kind_logged_and_skipped_witness :
    notify_accounts_logs_programs_signatures bank_forks_fix1 ⟨9, 9, 9⟩
        [⟨7, SubscriptionParams.vote, 0⟩]
      = ([⟨7, SubscriptionParams.vote, 0⟩], [], 1)
    ∧ visit_by_signature 4 [⟨8, SubscriptionParams.root, 0⟩] = ([], 1) := by
  constructor
  · have h := C9_wrong_kind_logged_and_skipped.1 bank_forks_fix1 ⟨9, 9, 9⟩
      ⟨7, SubscriptionParams.vote, 0⟩ [] rfl
    simpa using h
  · have h := C9_wrong_kind_logged_and_skipped.2 4 ⟨8, SubscriptionParams.root, 0⟩ []
      (fun params hp => by cases hp)
    simpa using h
